import Mathlib

/-!
Shallow embedding of the GPU job scheduler: the directory-based state machine
(`dirs.py`), the scheduler core (`scheduler.py`), the HTTP-side priority engine
(`priority_engine.py`) and the mock-SLURM daemon (`job_manager.py`).

Python floats are modelled as rationals (`ℚ`), Python ints as `ℕ`/`ℤ`,
dicts as insertion-ordered association lists, and the file system as the
list of existing files (directory, file-name) — directories themselves are
implicit.  Each definition mirrors one Python function.
-/

namespace GpuSched

/-- A file location: (directory path, file name). -/
abbrev Loc := String × String

-- ===== DEFINITIONS =====

/-- Python `d.get(k, default)` on a string-keyed dict of floats. -/
def dict_get (m : List (String × ℚ)) (k : String) (d : ℚ) : ℚ :=
  match m.find? (fun p => p.1 == k) with
  | some p => p.2
  | none => d

/-- Python `d[k] = v` on a dict: overwrite in place if the key is present
(keeping insertion order), else append at the end. -/
def dict_set (m : List (String × ℚ)) (k : String) (v : ℚ) : List (String × ℚ) :=
  if m.any (fun p => p.1 == k) then
    m.map (fun p => if p.1 == k then (k, v) else p)
  else m ++ [(k, v)]

/-! ### `scheduler.py` — `UserUsageTracker`

The tracker state is its `_usage` dict (`user_id -> total_gpu_seconds`);
the `asyncio.Lock` serialisation is implicit in the pure state passing. -/

/-- `UserUsageTracker.add_usage`: `usage[user] = usage.get(user, 0.0) + duration_sec * gpu_count`. -/
def add_usage (usage : List (String × ℚ)) (user_id : String) (duration_sec : ℚ)
    (gpu_count : ℕ := 1) : List (String × ℚ) :=
  dict_set usage user_id (dict_get usage user_id 0 + duration_sec * gpu_count)

/-- `UserUsageTracker.get_usage`: `usage.get(user, 0.0)`. -/
def get_usage (usage : List (String × ℚ)) (user_id : String) : ℚ :=
  dict_get usage user_id 0

/-- `UserUsageTracker.get_total_usage`: `sum(usage.values())`. -/
def get_total_usage (usage : List (String × ℚ)) : ℚ :=
  (usage.map Prod.snd).sum

/-! ### `priority_engine.py` — `UsageTracker.decay_usage` -/

/-- `UsageTracker.decay_usage`: `for user in data: data[user] *= factor`. -/
def decay_usage (usage : List (String × ℚ)) (factor : ℚ) : List (String × ℚ) :=
  usage.map (fun p => (p.1, p.2 * factor))

/-! ### `scheduler.py` — `SlurmConfig` and `Job` -/

/-- `SlurmConfig`: SLURM-style priority weights and factor tables, with the
source's default values (floats as exact rationals). -/
structure SlurmConfig where
  weight_age : ℚ := 1000
  weight_fairshare : ℚ := 10000
  weight_job_size : ℚ := 500
  weight_partition : ℚ := 1000
  weight_qos : ℚ := 1000
  fairshare_decay_norm : ℚ := 3600 * 10
  partitions : List (String × ℚ) := [("debug", 1), ("normal", 0.5), ("batch", 0.1)]
  qos_levels : List (String × ℚ) :=
    [("admin", 1), ("premium", 0.8), ("standard", 0.5), ("guest", 0.1)]

/-- The `Job` dataclass.  `script_path` is a (directory, file-name) pair; the
`_debug_factors` dict is omitted (no claim concerns it). -/
structure Job where
  id : String
  script_path : Loc
  user_id : String
  vram_required : ℕ
  created_at : ℚ
  partition : String := "normal"
  qos : String := "standard"
  status : String := "QUEUED"
  assigned_gpu : Option ℕ := none
  pid : Option ℕ := none
  priority_score : ℚ := 0
deriving DecidableEq

/-- `Job.time_waiting`: `time.time() - created_at`, with the current time
passed explicitly. -/
def time_waiting (j : Job) (now : ℚ) : ℚ :=
  now - j.created_at

/-- `GpuScheduler._calculate_slurm_priority`.  The tracker read
`usage_tracker.get_usage(job.user_id)` is passed in as `user_usage`. -/
def calculate_slurm_priority (cfg : SlurmConfig) (user_usage : ℚ) (j : Job)
    (now : ℚ) : ℚ :=
  let max_age_sec : ℚ := 7 * 24 * 3600
  let age_factor := min (time_waiting j now / max_age_sec) 1
  let fs_factor := 1 / (1 + user_usage / cfg.fairshare_decay_norm)
  let max_vram_ref : ℚ := 80 * 1024 ^ 3
  let size_factor := min ((j.vram_required : ℚ) / max_vram_ref) 1
  let part_factor := dict_get cfg.partitions j.partition 0.5
  let qos_factor := dict_get cfg.qos_levels j.qos 0.5
  cfg.weight_age * age_factor + cfg.weight_fairshare * fs_factor
    + cfg.weight_job_size * size_factor + cfg.weight_partition * part_factor
    + cfg.weight_qos * qos_factor

/-! ### `priority_engine.py` — `PriorityConfig` and `PriorityEngine` -/

/-- `PriorityConfig`: the HTTP-side engine's weights, normalisation constants
and score tables (class attributes as defaults). -/
structure PriorityConfig where
  WEIGHT_AGE : ℚ := 1000
  WEIGHT_FAIRSHARE : ℚ := 10000
  WEIGHT_JOB_SIZE : ℚ := 500
  WEIGHT_PARTITION : ℚ := 1000
  WEIGHT_QOS : ℚ := 10000
  MAX_AGE_SEC : ℚ := 7 * 24 * 3600
  FAIRSHARE_DECAY_NORM : ℚ := 10
  MAX_VRAM_REF : ℚ := 80
  PARTITION_SCORES : List (String × ℚ) := [("debug", 1), ("normal", 0.5), ("batch", 0.2)]
  QOS_SCORES : List (String × ℚ) :=
    [("hil", 1), ("high", 0.8), ("standard", 0.5), ("low", 0.1)]

/-- The fields of the job dict that `PriorityEngine.calculate_priority` reads,
with the dict-lookup defaults of the source.  `submitted_at` is the parsed
timestamp in seconds (the ISO-8601 string representation is immaterial). -/
structure EngineJob where
  user : String := "unknown"
  qos : String := "standard"
  partition : String := "normal"
  vram_gb : ℕ := 2
  submitted_at : ℚ
deriving DecidableEq

/-- Python `str.lower()` (character-wise, as used on qos/partition names). -/
def str_lower (s : String) : String := ⟨s.data.map Char.toLower⟩

/-- `PriorityEngine.calculate_priority`; `tracker` is the engine's
`usage_tracker.usage_data` dict and `now` is `datetime.utcnow()`. -/
def calculate_priority (cfg : PriorityConfig) (tracker : List (String × ℚ))
    (job : EngineJob) (now : ℚ) : ℚ :=
  let qos := if str_lower job.qos = "" then "standard" else str_lower job.qos
  let part := if str_lower job.partition = "" then "normal" else str_lower job.partition
  let wait_time_sec := now - job.submitted_at
  let age_factor := min (wait_time_sec / cfg.MAX_AGE_SEC) 1
  let user_usage := get_usage tracker job.user
  let fs_factor := 1 / (1 + user_usage / cfg.FAIRSHARE_DECAY_NORM)
  let size_factor := min ((job.vram_gb : ℚ) / cfg.MAX_VRAM_REF) 1
  let part_factor := dict_get cfg.PARTITION_SCORES part 0.5
  let qos_factor := dict_get cfg.QOS_SCORES qos 0.5
  cfg.WEIGHT_AGE * age_factor + cfg.WEIGHT_FAIRSHARE * fs_factor
    + cfg.WEIGHT_JOB_SIZE * size_factor + cfg.WEIGHT_PARTITION * part_factor
    + cfg.WEIGHT_QOS * qos_factor

/-! ### `dirs.py` — `DirLayout` and `safe_rename` -/

/-- `DirLayout`: the five state directories under a root. -/
structure DirLayout where
  root : String
deriving DecidableEq

def DirLayout.to_run (l : DirLayout) : String := l.root ++ "/to_run"

def DirLayout.running (l : DirLayout) : String := l.root ++ "/running"

def DirLayout.complete (l : DirLayout) : String := l.root ++ "/complete"

def DirLayout.fail (l : DirLayout) : String := l.root ++ "/fail"

def DirLayout.out (l : DirLayout) : String := l.root ++ "/out"

/-- Split a char list at its last `'.'`: `(stem, extension-with-dot)`. -/
def split_last_dot : List Char → Option (List Char × List Char)
  | [] => none
  | c :: cs =>
    match split_last_dot cs with
    | some (st, ex) => some (c :: st, ex)
    | none => if c = '.' then some ([], c :: cs) else none

/-- `os.path.splitext` on a bare file name: leading dots belong to the stem;
otherwise split at the last dot. -/
def splitext (s : String) : String × String :=
  let lead := s.data.takeWhile (fun c => c == '.')
  let rest := s.data.dropWhile (fun c => c == '.')
  match split_last_dot rest with
  | some (st, ex) => (⟨lead ++ st⟩, ⟨ex⟩)
  | none => (s, "")

/-- The names in directory `d` of the file-system snapshot. -/
def dir_names (files : List Loc) (d : String) : List String :=
  files.filterMap (fun p => if p.1 = d then some p.2 else none)

/-- The sequence of target names `safe_rename` probes: the requested name,
then `base_1ext`, `base_2ext`, … -/
def candidate_name (new_name base ext : String) : ℕ → String
  | 0 => new_name
  | Nat.succ k => base ++ "_" ++ Nat.repr (k + 1) ++ ext

/-- The `while target.exists()` loop of `safe_rename`, with fuel.  The fuel
`existing.length + 1` always suffices (proved below), so the fuelled loop
coincides with the source's unbounded loop. -/
def rename_loop (existing : List String) (base ext : String) : ℕ → ℕ → String
  | 0, counter => base ++ "_" ++ Nat.repr counter ++ ext
  | Nat.succ fuel, counter =>
    let target := base ++ "_" ++ Nat.repr counter ++ ext
    if target ∈ existing then rename_loop existing base ext fuel (counter + 1)
    else target

/-- `Path.replace`: atomic move — the file disappears from `src` and
(re)appears at `target`, overwriting any file already at `target`. -/
def replace_file (files : List Loc) (src target : Loc) : List Loc :=
  target :: files.filter (fun p => decide (p ≠ src ∧ p ≠ target))

/-- `DirLayout.safe_rename(src, dst_dir, new_name)`: choose the target name
(the requested one, else suffix `_1`, `_2`, … until free), atomically move,
return the new state and the final path. -/
def safe_rename (files : List Loc) (src : Loc) (dst_dir : String)
    (new_name : Option String := none) : List Loc × Loc :=
  let name := (new_name.getD src.2)
  let be := splitext name
  let existing := dir_names files dst_dir
  let target_name :=
    if name ∈ existing then rename_loop existing be.1 be.2 (existing.length + 1) 1
    else name
  let target : Loc := (dst_dir, target_name)
  (replace_file files src target, target)

/-! ### `scheduler.py` — `GpuScheduler`: init, submit, finalize -/

/-- The `GpuScheduler` state after `__init__`: the directory layout, the
in-memory job store, the fair-share tracker, and the file system.
`setup_dirs` only creates (empty) directories, which are implicit here. -/
structure SchedulerState where
  layout : DirLayout
  jobs : List Job
  usage : List (String × ℚ)
  files : List Loc
deriving DecidableEq

/-- `GpuScheduler.__init__(root_dir)`: build the layout, `setup_dirs` (no
file is created, moved or deleted), an empty `InMemoryJobStore` and an empty
`UserUsageTracker`.  No scan of `running/` takes place. -/
def gpu_scheduler_init (root_dir : String) (files : List Loc) : SchedulerState :=
  { layout := { root := root_dir }, jobs := [], usage := [], files := files }

/-- `GpuScheduler.submit_job`: move the source script into `to_run` under
`<job_id>.py` via `safe_rename`, then build the job record (the fresh uuid
and the clock reading are passed in). -/
def submit_job (layout : DirLayout) (files : List Loc) (src_script : Loc)
    (user_id : String) (vram_required : ℕ) (partition qos : String)
    (job_id : String) (now : ℚ) : List Loc × Job :=
  let r := safe_rename files src_script layout.to_run (some (job_id ++ ".py"))
  (r.1,
    { id := job_id, script_path := r.2, user_id := user_id,
      vram_required := vram_required, partition := partition, qos := qos,
      created_at := now })

/-- `GpuScheduler._wait_and_finalize`: compute the duration, charge the
ledger whatever the exit code, then rename the script to `complete/` or
`fail/` and set `COMPLETED`/`FAILED` (the job's `script_path` is not
updated by the source here). -/
def wait_and_finalize (layout : DirLayout) (usage : List (String × ℚ))
    (files : List Loc) (job : Job) (return_code : ℤ) (start_time now : ℚ) :
    List (String × ℚ) × Job × List Loc :=
  let duration := now - start_time
  let usage2 := add_usage usage job.user_id duration
  if return_code = 0 then
    let r := safe_rename files job.script_path layout.complete none
    (usage2, { job with status := "COMPLETED" }, r.1)
  else
    let r := safe_rename files job.script_path layout.fail none
    (usage2, { job with status := "FAILED" }, r.1)

/-! ### `docker/slurm-mock/bin/job_manager.py` — the mock-SLURM daemon -/

def MAX_CONCURRENT : ℕ := 2

def W_FAIR : ℚ := 1

def W_AGE : ℚ := 1

def W_PHYS : ℚ := 2

def W_RES : ℚ := 1

def W_HIL : ℚ := 10

def PHYS_KEYWORDS : List String :=
  ["physics", "sim", "simulation", "isaac", "robot", "mujoco"]

/-- One job JSON document with the fields the daemon reads.  Timestamps are
parsed seconds; `none` stands for a missing or unparseable ISO string. -/
structure DJob where
  job_id : String
  user : String := ""
  job_name : String := ""
  script : String := ""
  qos : String := ""
  gpu_count : ℕ := 1
  status : String := "PENDING"
  submitted_at : Option ℚ := none
  started_at : Option ℚ := none
  completed_at : Option ℚ := none
  priority_score : ℚ := 0
deriving DecidableEq

/-- Python's built-in bankers rounding to an integer (round half to even). -/
def round_half_even (x : ℚ) : ℤ :=
  if x - ⌊x⌋ < 1 / 2 then ⌊x⌋
  else if 1 / 2 < x - ⌊x⌋ then ⌊x⌋ + 1
  else if Even ⌊x⌋ then ⌊x⌋ else ⌊x⌋ + 1

/-- Python `round(x, 2)`. -/
def round2 (x : ℚ) : ℚ := (round_half_even (x * 100) : ℚ) / 100

/-- `compute_priority(job, all_jobs)` evaluated at wall-clock `now`. -/
def compute_priority (now : ℚ) (job : DJob) (all_jobs : List DJob) : ℚ :=
  let f_fair : ℚ :=
    if job.user ≠ "" then
      1 / (max ((all_jobs.filter (fun j => j.user == job.user
            && (j.status == "PENDING" || j.status == "RUNNING"))).length) 1 : ℕ)
    else 1
  let f_age : ℚ :=
    match job.submitted_at with
    | some sub => max ((now - sub) / 60) 0
    | none => 0
  let text := str_lower (job.job_name ++ " " ++ job.script)
  let f_phys : ℚ :=
    if PHYS_KEYWORDS.any (fun kw => decide (kw.data <:+: text.data)) then 1 else 0
  let f_res : ℚ := 1 / (max job.gpu_count 1 : ℕ)
  let f_hil : ℚ := if str_lower job.qos = "hil" then 1 else 0
  round2 (W_FAIR * f_fair + W_AGE * f_age + W_PHYS * f_phys
    + W_RES * f_res + W_HIL * f_hil)

/-- Step 1 of `process_jobs`: RUNNING jobs whose runtime reached 30 s are
completed in place. -/
def complete_overdue (now : ℚ) (entries : List DJob) : List DJob :=
  entries.map (fun j =>
    if j.status = "RUNNING" then
      match j.started_at with
      | some started =>
        if 30 ≤ now - started then
          { j with status := "COMPLETED", completed_at := some now }
        else j
      | none => j
    else j)

/-- Step 2 of `process_jobs`: the current number of RUNNING entries. -/
def running_count (entries : List DJob) : ℕ :=
  (entries.filter (fun j => j.status == "RUNNING")).length

/-- Step 3 of `process_jobs`: write the fresh priority into every PENDING
entry (in place, via the shared dicts). -/
def score_pending (now : ℚ) (entries : List DJob) : List DJob :=
  entries.map (fun j =>
    if j.status == "PENDING" then
      { j with priority_score := compute_priority now j entries }
    else j)

/-- Step 4 of `process_jobs`: walk the sorted pending entries (paired with
their position in the store) and promote while a slot is free. -/
def promote_loop (now : ℚ) : List (ℕ × DJob) → ℤ → List DJob → List DJob
  | [], _, acc => acc
  | (i, j) :: rest, slots, acc =>
    if slots ≤ 0 then acc
    else promote_loop now rest (slots - 1)
      (acc.set i { j with status := "RUNNING", started_at := some now })

/-- One `process_jobs()` pass of the daemon: complete overdue RUNNING jobs,
compute the free slots, and promote the pending entries in descending
priority order until the slots run out. -/
def process_jobs (now : ℚ) (entries : List DJob) : List DJob :=
  if entries = [] then entries
  else
    let entries1 := complete_overdue now entries
    let slots : ℤ := (MAX_CONCURRENT : ℤ) - running_count entries1
    if slots ≤ 0 then entries1
    else
      let scored := score_pending now entries1
      let pending := scored.enum.filter (fun p => p.2.status == "PENDING")
      let sorted := pending.insertionSort
        (fun a b => b.2.priority_score ≤ a.2.priority_score)
      promote_loop now sorted slots scored

/-! ### `gpu_monitor.py` and the admission pass of `scheduler.py` -/

/-- The `GpuMetrics` dataclass. -/
structure GpuMetrics where
  gpu_id : ℕ
  name : String
  memory_total : ℤ
  memory_used : ℤ
  temperature : Option ℤ := none
  utilization : Option ℤ := none
  is_healthy : Bool
deriving DecidableEq

/-- `GpuScheduler._find_available_gpu` (the store read of `running_jobs` is
passed in as a count). -/
def find_available_gpu (metrics : List GpuMetrics) (running_jobs : ℕ)
    (vram_required : ℕ) : Option ℕ :=
  match metrics with
  | [] => none
  | m :: rest =>
    if ¬ m.is_healthy then find_available_gpu rest running_jobs vram_required
    else if m.name = "virtual-gpu-0" ∧ 0 < running_jobs then
      find_available_gpu rest running_jobs vram_required
    else if (vram_required : ℤ) ≤ m.memory_total - m.memory_used
        ∧ m.memory_used < 1 * 1024 ^ 3 then some m.gpu_id
    else find_available_gpu rest running_jobs vram_required

/-- The RUNNING jobs counted by `_find_available_gpu`. -/
def running_count_jobs (jobs : List Job) : ℕ :=
  (jobs.filter (fun j => j.status == "RUNNING")).length

/-- `_pick_next_job`'s per-candidate score update (written through the
shared job object). -/
def rescore (cfg : SlurmConfig) (usage : List (String × ℚ)) (now : ℚ)
    (j : Job) : Job :=
  { j with priority_score :=
      calculate_slurm_priority cfg (get_usage usage j.user_id) j now }

/-- `GpuScheduler._pick_next_job`: filter the QUEUED candidates, recompute
every candidate's score, sort by score descending and return the head. -/
def pick_next_job (cfg : SlurmConfig) (usage : List (String × ℚ)) (now : ℚ)
    (jobs : List Job) : Option Job :=
  let candidates := jobs.filter (fun j => j.status == "QUEUED")
  if candidates = [] then none
  else
    ((candidates.map (rescore cfg usage now)).insertionSort
      (fun a b => b.priority_score ≤ a.priority_score)).head?

/-- The job store after `_pick_next_job` ran: every QUEUED entry carries its
fresh score (the candidates are the very objects held by the store). -/
def rescore_store (cfg : SlurmConfig) (usage : List (String × ℚ)) (now : ℚ)
    (jobs : List Job) : List Job :=
  jobs.map (fun j => if j.status == "QUEUED" then rescore cfg usage now j else j)

/-- `InMemoryJobStore.update_job`: `_jobs[job.id] = job`. -/
def update_job (jobs : List Job) (j : Job) : List Job :=
  jobs.map (fun k => if k.id == j.id then j else k)

/-- `GpuScheduler._launch_job`: find a GPU for the picked job; if none,
return unchanged; else move the script to `running/`, mark the job RUNNING
on that GPU with the spawned pid, and store it. -/
def launch_job (layout : DirLayout) (metrics : List GpuMetrics) (new_pid : ℕ)
    (jobs : List Job) (files : List Loc) (top : Job) : List Job × List Loc :=
  match find_available_gpu metrics (running_count_jobs jobs) top.vram_required with
  | none => (jobs, files)
  | some gpu_id =>
    let r := safe_rename files top.script_path layout.running none
    let top2 := { top with
      script_path := r.2
      status := "RUNNING"
      assigned_gpu := some gpu_id
      pid := some new_pid }
    (update_job jobs top2, r.1)

/-- One iteration of `run_forever`: pick the single highest-scoring QUEUED
job (if any) and try to launch it. -/
def scheduler_pass (cfg : SlurmConfig) (layout : DirLayout)
    (metrics : List GpuMetrics) (usage : List (String × ℚ)) (now : ℚ)
    (new_pid : ℕ) (jobs : List Job) (files : List Loc) : List Job × List Loc :=
  match pick_next_job cfg usage now jobs with
  | none => (jobs, files)
  | some top =>
    launch_job layout metrics new_pid (rescore_store cfg usage now jobs) files top

/-- Concrete fixture for the admission pass: one healthy 16 GiB GPU. -/
def gpu16 : GpuMetrics :=
  { gpu_id := 0, name := "gpu-0", memory_total := 16 * 1024 ^ 3,
    memory_used := 0, is_healthy := true }

/-- Concrete fixture: a high-priority job demanding 32 GiB (no GPU fits). -/
def jobBig : Job :=
  { id := "J1", script_path := ("/w/to_run", "J1.py"), user_id := "alice",
    vram_required := 32 * 1024 ^ 3, created_at := 0, partition := "debug" }

/-- Concrete fixture: a lower-priority job demanding 1 GiB (the GPU fits). -/
def jobSmall : Job :=
  { id := "J2", script_path := ("/w/to_run", "J2.py"), user_id := "alice",
    vram_required := 1 * 1024 ^ 3, created_at := 0, partition := "batch" }

instance : IsTotal Job (fun a b => b.priority_score ≤ a.priority_score) :=
  ⟨fun a b => le_total b.priority_score a.priority_score⟩

instance : IsTrans Job (fun a b => b.priority_score ≤ a.priority_score) :=
  ⟨fun _ _ _ h1 h2 => le_trans h2 h1⟩

/-- Numeric value of a decimal digit character (auxiliary, for proving the
`_1`, `_2`, … suffix names pairwise distinct). -/
def digit_val (c : Char) : ℕ := c.toNat - 48

/-- Parse a decimal digit string back to a number (auxiliary inverse of
`Nat.repr`). -/
def parse_digits (l : List Char) : ℕ := l.foldl (fun a c => 10 * a + digit_val c) 0

-- ===== THEOREMS =====

lemma dict_get_nil (k : String) (d : ℚ) : dict_get [] k d = d := rfl

lemma calculate_slurm_priority_eq (cfg : SlurmConfig) (usage : ℚ) (j : Job)
    (now : ℚ) :
    calculate_slurm_priority cfg usage j now
      = cfg.weight_age * min ((now - j.created_at) / (7 * 24 * 3600)) 1
      + cfg.weight_fairshare * (1 / (1 + usage / cfg.fairshare_decay_norm))
      + cfg.weight_job_size * min ((j.vram_required : ℚ) / (80 * 1024 ^ 3)) 1
      + cfg.weight_partition * dict_get cfg.partitions j.partition 0.5
      + cfg.weight_qos * dict_get cfg.qos_levels j.qos 0.5 := rfl

lemma calculate_priority_eq (cfg : PriorityConfig) (tracker : List (String × ℚ))
    (job : EngineJob) (now : ℚ) :
    calculate_priority cfg tracker job now
      = cfg.WEIGHT_AGE * min ((now - job.submitted_at) / cfg.MAX_AGE_SEC) 1
      + cfg.WEIGHT_FAIRSHARE
          * (1 / (1 + get_usage tracker job.user / cfg.FAIRSHARE_DECAY_NORM))
      + cfg.WEIGHT_JOB_SIZE * min ((job.vram_gb : ℚ) / cfg.MAX_VRAM_REF) 1
      + cfg.WEIGHT_PARTITION * dict_get cfg.PARTITION_SCORES
          (if str_lower job.partition = "" then "normal" else str_lower job.partition) 0.5
      + cfg.WEIGHT_QOS * dict_get cfg.QOS_SCORES
          (if str_lower job.qos = "" then "standard" else str_lower job.qos) 0.5 := rfl

lemma dict_get_cons (p : String × ℚ) (m : List (String × ℚ)) (k : String) (d : ℚ) :
    dict_get (p :: m) k d = if p.1 == k then p.2 else dict_get m k d := by
  by_cases h : p.1 == k <;> simp [dict_get, List.find?, h]

lemma dict_get_not_mem (m : List (String × ℚ)) (k : String) (d : ℚ)
    (h : k ∉ m.map Prod.fst) : dict_get m k d = d := by
  induction m with
  | nil => rfl
  | cons p rest ih =>
    simp only [List.map_cons, List.mem_cons, not_or] at h
    rw [dict_get_cons, if_neg (by simpa using fun hp => h.1 hp.symm)]
    exact ih h.2

lemma dict_get_mem_or (m : List (String × ℚ)) (k : String) (d : ℚ) :
    dict_get m k d = d ∨ ∃ p ∈ m, dict_get m k d = p.2 := by
  unfold dict_get
  cases hf : m.find? (fun p => p.1 == k) with
  | none => exact Or.inl rfl
  | some p => exact Or.inr ⟨p, List.mem_of_find?_eq_some hf, rfl⟩

lemma dict_get_bounds (m : List (String × ℚ)) (k : String) (d : ℚ)
    (hd0 : 0 ≤ d) (hd1 : d ≤ 1) (hm : ∀ p ∈ m, 0 ≤ p.2 ∧ p.2 ≤ 1) :
    0 ≤ dict_get m k d ∧ dict_get m k d ≤ 1 := by
  rcases dict_get_mem_or m k d with h | ⟨p, hp, h⟩
  · exact ⟨by rw [h]; exact hd0, by rw [h]; exact hd1⟩
  · exact ⟨by rw [h]; exact (hm p hp).1, by rw [h]; exact (hm p hp).2⟩

lemma dict_get_set_self (m : List (String × ℚ)) (k : String) (v : ℚ) (d : ℚ) :
    dict_get (dict_set m k v) k d = v := by
  induction m with
  | nil => simp [dict_set, dict_get]
  | cons p rest ih =>
    by_cases hp : p.1 = k
    · simp [dict_set, List.any_cons, hp, dict_get_cons]
    · have hb : (p.1 == k) = false := by simpa using hp
      by_cases hr : rest.any (fun q => q.1 == k)
      · have hs : dict_set rest k v = rest.map (fun q => if q.1 == k then (k, v) else q) := by
          simp [dict_set, hr]
        have h2 : dict_set (p :: rest) k v
            = p :: rest.map (fun q => if q.1 == k then (k, v) else q) := by
          simp only [dict_set, List.any_cons, hb, hr, Bool.false_or, if_pos, List.map_cons]
          simp [hb]
        rw [h2, dict_get_cons, ← hs, ih]
        simp [hb]
      · have hs : dict_set rest k v = rest ++ [(k, v)] := by simp [dict_set, hr]
        have h2 : dict_set (p :: rest) k v = p :: (rest ++ [(k, v)]) := by
          simp [dict_set, List.any_cons, hb, hr]
        rw [h2, dict_get_cons, ← hs, ih]
        simp [hb]

lemma dict_get_decay (m : List (String × ℚ)) (factor : ℚ) (k : String) :
    dict_get (decay_usage m factor) k 0 = dict_get m k 0 * factor := by
  induction m with
  | nil => simp [decay_usage, dict_get]
  | cons p rest ih =>
    by_cases hp : p.1 == k <;>
      simp [decay_usage, dict_get_cons, hp] at ih ⊢ <;> simpa using ih

/-- C8: `add_usage(user, duration_sec, gpu_count)` increases exactly that user's
ledger entry by `duration_sec * gpu_count` (a missing user starting from zero,
since `get_usage` reads 0 for unknown users and the same read seeds the update);
`get_usage` returns 0 for users not in the ledger; and `decay(factor)` with
`0 < factor < 1` multiplies every user's entry by `factor` and leaves the set of
ledger users unchanged. -/
theorem c8_usage_ledger (usage : List (String × ℚ)) (user : String)
    (duration_sec : ℚ) (gpu_count : ℕ) (factor : ℚ)
    (hdur : 0 ≤ duration_sec) (hfac : 0 < factor ∧ factor < 1) :
    get_usage (add_usage usage user duration_sec gpu_count) user
        = get_usage usage user + duration_sec * gpu_count
    ∧ (∀ u : String, u ∉ usage.map Prod.fst → get_usage usage u = 0)
    ∧ (∀ u : String, get_usage (decay_usage usage factor) u = get_usage usage u * factor)
    ∧ (decay_usage usage factor).map Prod.fst = usage.map Prod.fst := by
  refine ⟨?_, ?_, ?_, ?_⟩
  · simpa [get_usage, add_usage] using dict_get_set_self usage user _ 0
  · intro u hu
    induction usage with
    | nil => rfl
    | cons p rest ih =>
      simp only [List.map_cons, List.mem_cons, not_or] at hu
      rw [get_usage, dict_get_cons, if_neg (by simpa using fun h => hu.1 h.symm)]
      exact ih hu.2
  · intro u; simpa [get_usage] using dict_get_decay usage factor u
  · simp [decay_usage]

/-- Witness for C8 at a concrete ledger. -/
theorem c8_usage_ledger_witness :
    (0 : ℚ) ≤ 5 ∧ ((0 : ℚ) < 1/2 ∧ (1/2 : ℚ) < 1) ∧
    (get_usage (add_usage [("alice", 10)] "alice" 5 2) "alice"
        = get_usage [("alice", (10 : ℚ))] "alice" + 5 * 2
    ∧ (∀ u : String, u ∉ ([("alice", (10 : ℚ))] : List (String × ℚ)).map Prod.fst →
        get_usage [("alice", (10 : ℚ))] u = 0)
    ∧ (∀ u : String, get_usage (decay_usage [("alice", (10 : ℚ))] (1/2)) u
        = get_usage [("alice", (10 : ℚ))] u * (1/2))
    ∧ (decay_usage [("alice", (10 : ℚ))] (1/2)).map Prod.fst
        = ([("alice", (10 : ℚ))] : List (String × ℚ)).map Prod.fst) :=
  ⟨by norm_num, ⟨by norm_num, by norm_num⟩,
    c8_usage_ledger [("alice", 10)] "alice" 5 2 (1/2) (by norm_num) ⟨by norm_num, by norm_num⟩⟩

/-- C3: the computed priority is exactly the weighted sum of the five factors,
with `age_factor = min((t - created_at)/MAX_AGE_SEC, 1)`,
`fairshare_factor = 1/(1 + usage/FAIRSHARE_DECAY_NORM)`,
`size_factor = min(vram_required/MAX_VRAM_REF, 1)`, and table lookups for
partition and QoS; under non-negative ledger usage (and evaluation after
creation) each of the five factors lies in `[0,1]` for the default tables, and
a partition or QoS name absent from the configured tables contributes `0.5`.
Both the scheduler's `_calculate_slurm_priority` and the HTTP engine's
`calculate_priority` are covered. -/
theorem c3_priority_formula (usage : ℚ) (j : Job) (t : ℚ)
    (tracker : List (String × ℚ)) (ej : EngineJob)
    (h0 : 0 ≤ usage) (ht : j.created_at ≤ t)
    (htr : 0 ≤ get_usage tracker ej.user) :
    (∀ cfg : SlurmConfig, calculate_slurm_priority cfg usage j t
        = cfg.weight_age * min ((t - j.created_at) / (7 * 24 * 3600)) 1
        + cfg.weight_fairshare * (1 / (1 + usage / cfg.fairshare_decay_norm))
        + cfg.weight_job_size * min ((j.vram_required : ℚ) / (80 * 1024 ^ 3)) 1
        + cfg.weight_partition * dict_get cfg.partitions j.partition 0.5
        + cfg.weight_qos * dict_get cfg.qos_levels j.qos 0.5)
    ∧ (0 ≤ min ((t - j.created_at) / (7 * 24 * 3600)) 1
        ∧ min ((t - j.created_at) / (7 * 24 * 3600)) 1 ≤ 1)
    ∧ (0 ≤ 1 / (1 + usage / (36000 : ℚ)) ∧ 1 / (1 + usage / (36000 : ℚ)) ≤ 1)
    ∧ (0 ≤ min ((j.vram_required : ℚ) / (80 * 1024 ^ 3)) 1
        ∧ min ((j.vram_required : ℚ) / (80 * 1024 ^ 3)) 1 ≤ 1)
    ∧ (0 ≤ dict_get ({} : SlurmConfig).partitions j.partition 0.5
        ∧ dict_get ({} : SlurmConfig).partitions j.partition 0.5 ≤ 1)
    ∧ (0 ≤ dict_get ({} : SlurmConfig).qos_levels j.qos 0.5
        ∧ dict_get ({} : SlurmConfig).qos_levels j.qos 0.5 ≤ 1)
    ∧ (j.partition ∉ (["debug", "normal", "batch"] : List String) →
        dict_get ({} : SlurmConfig).partitions j.partition 0.5 = 0.5)
    ∧ (j.qos ∉ (["admin", "premium", "standard", "guest"] : List String) →
        dict_get ({} : SlurmConfig).qos_levels j.qos 0.5 = 0.5)
    ∧ (∀ cfg : PriorityConfig, calculate_priority cfg tracker ej t
        = cfg.WEIGHT_AGE * min ((t - ej.submitted_at) / cfg.MAX_AGE_SEC) 1
        + cfg.WEIGHT_FAIRSHARE
            * (1 / (1 + get_usage tracker ej.user / cfg.FAIRSHARE_DECAY_NORM))
        + cfg.WEIGHT_JOB_SIZE * min ((ej.vram_gb : ℚ) / cfg.MAX_VRAM_REF) 1
        + cfg.WEIGHT_PARTITION * dict_get cfg.PARTITION_SCORES
            (if str_lower ej.partition = "" then "normal" else str_lower ej.partition) 0.5
        + cfg.WEIGHT_QOS * dict_get cfg.QOS_SCORES
            (if str_lower ej.qos = "" then "standard" else str_lower ej.qos) 0.5)
    ∧ (0 ≤ 1 / (1 + get_usage tracker ej.user / (10 : ℚ))
        ∧ 1 / (1 + get_usage tracker ej.user / (10 : ℚ)) ≤ 1) := by
  have hden : (0 : ℚ) < 1 + usage / 36000 := by positivity
  have hden' : (0 : ℚ) < 1 + get_usage tracker ej.user / 10 := by positivity
  refine ⟨fun cfg => rfl, ⟨?_, min_le_right _ _⟩, ⟨?_, ?_⟩, ⟨?_, min_le_right _ _⟩,
    ?_, ?_, ?_, ?_, fun cfg => rfl, ⟨?_, ?_⟩⟩
  · exact le_min (div_nonneg (sub_nonneg.2 ht) (by norm_num)) zero_le_one
  · positivity
  · rw [div_le_one hden]; linarith [div_nonneg h0 (by norm_num : (0:ℚ) ≤ 36000)]
  · exact le_min (div_nonneg (Nat.cast_nonneg _) (by norm_num)) zero_le_one
  · exact dict_get_bounds _ _ _ (by norm_num) (by norm_num) (by norm_num)
  · exact dict_get_bounds _ _ _ (by norm_num) (by norm_num) (by norm_num)
  · intro h; exact dict_get_not_mem _ _ _ (by simpa using h)
  · intro h; exact dict_get_not_mem _ _ _ (by simpa using h)
  · positivity
  · rw [div_le_one hden']
    linarith [div_nonneg htr (by norm_num : (0:ℚ) ≤ 10)]

/-- Witness for C3 at a concrete job, time and ledger. -/
theorem c3_priority_formula_witness :
    ((0 : ℚ) ≤ 0) ∧ (((0 : ℚ) : ℚ) ≤ 1)
    ∧ (0 ≤ get_usage [] ({ submitted_at := 0 } : EngineJob).user)
    ∧ (0 ≤ min ((1 - (0 : ℚ)) / (7 * 24 * 3600)) 1
        ∧ min ((1 - (0 : ℚ)) / (7 * 24 * 3600)) 1 ≤ 1) :=
  ⟨le_refl 0, by norm_num, by norm_num [get_usage, dict_get],
    (c3_priority_formula 0
        { id := "a", script_path := ("to_run", "a.py"), user_id := "alice",
          vram_required := 1, created_at := 0 } 1 [] { submitted_at := 0 }
        (le_refl 0) (by norm_num)
        (by norm_num [get_usage, dict_get])).2.1⟩

/-- C9: with the ledger usage of the job's user and all other inputs fixed,
the scheduler's priority is monotone in the evaluation time (aging only raises
the score), for any configuration with a non-negative age weight (the default
1000 included). -/
theorem c9_monotone_aging (cfg : SlurmConfig) (usage : ℚ) (j : Job)
    (t1 t2 : ℚ) (hw : 0 ≤ cfg.weight_age) (ht : t1 < t2) :
    calculate_slurm_priority cfg usage j t1 ≤ calculate_slurm_priority cfg usage j t2 := by
  rw [calculate_slurm_priority_eq, calculate_slurm_priority_eq]
  have hage : min ((t1 - j.created_at) / (7 * 24 * 3600)) 1
      ≤ min ((t2 - j.created_at) / (7 * 24 * 3600)) 1 :=
    min_le_min ((div_le_div_right (by norm_num)).2 (by linarith)) le_rfl
  exact add_le_add (add_le_add (add_le_add (add_le_add
    (mul_le_mul_of_nonneg_left hage hw) le_rfl) le_rfl) le_rfl) le_rfl

/-- Witness for C9 at a concrete configuration, job and pair of times. -/
theorem c9_monotone_aging_witness :
    (0 : ℚ) ≤ ({} : SlurmConfig).weight_age ∧ (0 : ℚ) < 1 ∧
    calculate_slurm_priority {} 0
        { id := "a", script_path := ("to_run", "a.py"), user_id := "alice",
          vram_required := 1, created_at := 0 } 0
      ≤ calculate_slurm_priority {} 0
        { id := "a", script_path := ("to_run", "a.py"), user_id := "alice",
          vram_required := 1, created_at := 0 } 1 :=
  ⟨by norm_num [SlurmConfig.weight_age], by norm_num,
    c9_monotone_aging {} 0
      { id := "a", script_path := ("to_run", "a.py"), user_id := "alice",
        vram_required := 1, created_at := 0 } 0 1
      (by norm_num [SlurmConfig.weight_age]) (by norm_num)⟩

/-- C4 counterexample: in the scheduler's default `SlurmConfig`, the name
"hil" is absent from `qos_levels`, so a qos=hil job gets the fallback factor
0.5 — not 1.0 — and two jobs identical except for QoS (hil vs standard),
submitted at the same instant, receive exactly equal priority scores: the hil
job does not score strictly higher. -/
theorem c4_counterexample :
    dict_get ({} : SlurmConfig).qos_levels "hil" 0.5 = 0.5
    ∧ dict_get ({} : SlurmConfig).qos_levels "hil" 0.5 ≠ 1
    ∧ calculate_slurm_priority {} 0
        { id := "J2", script_path := ("to_run", "J2.py"), user_id := "bob",
          vram_required := 1, created_at := 0, qos := "hil" } 0
      = calculate_slurm_priority {} 0
        { id := "J1", script_path := ("to_run", "J1.py"), user_id := "bob",
          vram_required := 1, created_at := 0, qos := "standard" } 0
    ∧ ¬ (calculate_slurm_priority {} 0
        { id := "J2", script_path := ("to_run", "J2.py"), user_id := "bob",
          vram_required := 1, created_at := 0, qos := "hil" } 0
      > calculate_slurm_priority {} 0
        { id := "J1", script_path := ("to_run", "J1.py"), user_id := "bob",
          vram_required := 1, created_at := 0, qos := "standard" } 0) := by
  have e1 : dict_get ({} : SlurmConfig).qos_levels "hil" 0.5 = 0.5 := by
    simp [dict_get_cons, dict_get]
  have hEq : calculate_slurm_priority {} 0
        { id := "J2", script_path := ("to_run", "J2.py"), user_id := "bob",
          vram_required := 1, created_at := 0, qos := "hil" } 0
      = calculate_slurm_priority {} 0
        { id := "J1", script_path := ("to_run", "J1.py"), user_id := "bob",
          vram_required := 1, created_at := 0, qos := "standard" } 0 := by
    rw [calculate_slurm_priority_eq, calculate_slurm_priority_eq]
    norm_num +decide [dict_get_cons, dict_get_nil]
  exact ⟨e1, by rw [e1]; norm_num, hEq, by rw [hEq]; exact lt_irrefl _⟩

/-- C4 amended: in the HTTP priority engine's default `QOS_SCORES` table,
"hil" scores 1.0, the maximum of the table, and of two jobs identical except
for QoS submitted at the same instant the qos=hil job scores strictly higher
than the qos=standard job (so it sorts ahead and is admitted first); in the
scheduler's default `SlurmConfig`, however, "hil" is unknown, falls back to
0.5, and the two jobs score exactly equal. -/
theorem c4_amended (tracker : List (String × ℚ)) (u p : String) (v : ℕ)
    (s t usage : ℚ) (j : Job) :
    dict_get ({} : PriorityConfig).QOS_SCORES "hil" 0.5 = 1
    ∧ (∀ q ∈ ({} : PriorityConfig).QOS_SCORES, q.2 ≤ 1)
    ∧ calculate_priority {} tracker
        { user := u, qos := "hil", partition := p, vram_gb := v, submitted_at := s } t
      > calculate_priority {} tracker
        { user := u, qos := "standard", partition := p, vram_gb := v, submitted_at := s } t
    ∧ dict_get ({} : SlurmConfig).qos_levels "hil" 0.5 = 0.5
    ∧ calculate_slurm_priority {} usage { j with qos := "hil" } t
      = calculate_slurm_priority {} usage { j with qos := "standard" } t := by
  have sl1 : str_lower "hil" = "hil" := by decide
  have sl2 : str_lower "standard" = "standard" := by decide
  refine ⟨?_, ?_, ?_, ?_, ?_⟩
  · norm_num +decide [dict_get_cons, dict_get_nil]
  · intro q hq
    simp only [List.mem_cons, List.not_mem_nil, or_false] at hq
    rcases hq with h | h | h | h <;> subst h <;> norm_num
  · rw [calculate_priority_eq, calculate_priority_eq]
    dsimp only
    rw [sl1, sl2]
    norm_num +decide [dict_get_cons, dict_get_nil]
  · norm_num +decide [dict_get_cons, dict_get_nil]
  · rw [calculate_slurm_priority_eq, calculate_slurm_priority_eq]
    norm_num +decide [dict_get_cons, dict_get_nil]

/-! #### `Nat.repr` is injective (hence suffixed candidate names are distinct) -/

lemma digit_val_digitChar {d : ℕ} (h : d < 10) : digit_val (Nat.digitChar d) = d := by
  interval_cases d <;> rfl

lemma toDigitsCore_acc (fuel : ℕ) : ∀ (n : ℕ) (ds : List Char),
    Nat.toDigitsCore 10 fuel n ds = Nat.toDigitsCore 10 fuel n [] ++ ds := by
  induction fuel with
  | zero => intro n ds; rfl
  | succ f ih =>
    intro n ds
    simp only [Nat.toDigitsCore]
    by_cases h : n / 10 = 0
    · simp [h]
    · rw [if_neg h, if_neg h, ih (n / 10) (Nat.digitChar (n % 10) :: ds),
        ih (n / 10) [Nat.digitChar (n % 10)], List.append_assoc, List.singleton_append]

lemma toDigitsCore_fuel (n : ℕ) : ∀ (f1 f2 : ℕ), n < f1 → n < f2 →
    Nat.toDigitsCore 10 f1 n [] = Nat.toDigitsCore 10 f2 n [] := by
  induction n using Nat.strong_induction_on with
  | _ n ih =>
    intro f1 f2 h1 h2
    cases f1 with
    | zero => omega
    | succ f1 =>
      cases f2 with
      | zero => omega
      | succ f2 =>
        simp only [Nat.toDigitsCore]
        by_cases h : n / 10 = 0
        · simp [h]
        · have hn : 0 < n := by
            rcases Nat.eq_zero_or_pos n with rfl | hp
            · simp at h
            · exact hp
          have hlt : n / 10 < n := Nat.div_lt_self hn (by norm_num)
          rw [if_neg h, if_neg h, toDigitsCore_acc f1, toDigitsCore_acc f2,
            ih (n / 10) hlt f1 f2 (by omega) (by omega)]

lemma toDigits_lt_ten {n : ℕ} (h : n < 10) : Nat.toDigits 10 n = [Nat.digitChar n] := by
  unfold Nat.toDigits
  simp only [Nat.toDigitsCore]
  rw [if_pos (Nat.div_eq_of_lt h), Nat.mod_eq_of_lt h]

lemma toDigits_ge_ten {n : ℕ} (h : 10 ≤ n) :
    Nat.toDigits 10 n = Nat.toDigits 10 (n / 10) ++ [Nat.digitChar (n % 10)] := by
  have hne : n / 10 ≠ 0 := Nat.pos_iff_ne_zero.mp (Nat.div_pos h (by norm_num))
  have hlt : n / 10 < n := Nat.div_lt_self (by omega) (by norm_num)
  unfold Nat.toDigits
  simp only [Nat.toDigitsCore]
  rw [if_neg hne, toDigitsCore_acc]
  congr 1
  exact toDigitsCore_fuel (n / 10) n (n / 10 + 1) (by omega) (Nat.lt_succ_self _)

lemma parse_digits_toDigits (n : ℕ) : ∀ a : ℕ,
    (Nat.toDigits 10 n).foldl (fun a c => 10 * a + digit_val c) a
      = a * 10 ^ (Nat.toDigits 10 n).length + n := by
  induction n using Nat.strong_induction_on with
  | _ n ih =>
    intro a
    by_cases h : n < 10
    · rw [toDigits_lt_ten h]
      simp [digit_val_digitChar h]
      ring
    · push_neg at h
      have hlt : n / 10 < n := Nat.div_lt_self (by omega) (by norm_num)
      rw [toDigits_ge_ten h, List.foldl_append, ih (n / 10) hlt a]
      simp only [List.foldl_cons, List.foldl_nil, List.length_append,
        List.length_singleton]
      rw [digit_val_digitChar (Nat.mod_lt n (by norm_num))]
      have hm : 10 * (n / 10) + n % 10 = n := Nat.div_add_mod n 10
      calc 10 * (a * 10 ^ (Nat.toDigits 10 (n / 10)).length + n / 10) + n % 10
          = a * (10 ^ (Nat.toDigits 10 (n / 10)).length * 10)
            + (10 * (n / 10) + n % 10) := by ring
        _ = a * 10 ^ ((Nat.toDigits 10 (n / 10)).length + 1) + n := by
            rw [hm, pow_succ]

lemma parse_repr (n : ℕ) : parse_digits (Nat.toDigits 10 n) = n := by
  simpa [parse_digits] using parse_digits_toDigits n 0

lemma repr_injective : Function.Injective Nat.repr := by
  intro m n h
  have hd : Nat.toDigits 10 m = Nat.toDigits 10 n := by
    simpa [List.asString] using congrArg String.data h
  calc m = parse_digits (Nat.toDigits 10 m) := (parse_repr m).symm
    _ = parse_digits (Nat.toDigits 10 n) := by rw [hd]
    _ = n := parse_repr n

lemma suffix_name_inj (base ext : String) {k1 k2 : ℕ}
    (h : base ++ "_" ++ Nat.repr k1 ++ ext = base ++ "_" ++ Nat.repr k2 ++ ext) :
    k1 = k2 := by
  apply repr_injective
  have hd := congrArg String.data h
  simp only [String.data_append, List.append_assoc] at hd
  have h1 := List.append_cancel_left hd
  have h2 := List.append_cancel_left h1
  have h3 := List.append_cancel_right h2
  exact String.ext h3

lemma nodup_subset_length {l1 l2 : List String} (h1 : l1.Nodup) (h2 : l1 ⊆ l2) :
    l1.length ≤ l2.length := by
  calc l1.length = l1.toFinset.card := (List.toFinset_card_of_nodup h1).symm
    _ ≤ l2.toFinset.card := Finset.card_le_card (fun x hx => by
        simp only [List.mem_toFinset] at hx ⊢; exact h2 hx)
    _ ≤ l2.length := List.toFinset_card_le l2

lemma exists_free_counter (existing : List String) (base ext : String) :
    ∃ c, 1 ≤ c ∧ c < existing.length + 2 ∧
      (base ++ "_" ++ Nat.repr c ++ ext) ∉ existing := by
  by_contra hall
  push_neg at hall
  set f : ℕ → String := fun i => base ++ "_" ++ Nat.repr (i + 1) ++ ext with hf
  have hsub : (List.range (existing.length + 1)).map f ⊆ existing := by
    intro c hc
    simp only [List.mem_map, List.mem_range] at hc
    obtain ⟨i, hi, rfl⟩ := hc
    exact hall (i + 1) (by omega) (by omega)
  have hnodup : ((List.range (existing.length + 1)).map f).Nodup := by
    refine (List.nodup_range _).map_on ?_
    intro a _ b _ hab
    have := suffix_name_inj base ext hab
    omega
  have := nodup_subset_length hnodup hsub
  simp at this

lemma rename_loop_spec (existing : List String) (base ext : String) :
    ∀ (fuel counter : ℕ),
      (∃ c, counter ≤ c ∧ c < counter + fuel ∧
        (base ++ "_" ++ Nat.repr c ++ ext) ∉ existing) →
      ∃ c, counter ≤ c
        ∧ rename_loop existing base ext fuel counter
            = base ++ "_" ++ Nat.repr c ++ ext
        ∧ (base ++ "_" ++ Nat.repr c ++ ext) ∉ existing
        ∧ ∀ i, counter ≤ i → i < c → (base ++ "_" ++ Nat.repr i ++ ext) ∈ existing := by
  intro fuel
  induction fuel with
  | zero =>
    rintro counter ⟨c, h1, h2, h3⟩
    omega
  | succ f ih =>
    rintro counter ⟨c, h1, h2, h3⟩
    by_cases hmem : (base ++ "_" ++ Nat.repr counter ++ ext) ∈ existing
    · have hcc : c ≠ counter := by
        intro hh
        subst hh
        exact h3 hmem
      obtain ⟨c', hc1, heq, hni, hall⟩ := ih (counter + 1) ⟨c, by omega, by omega, h3⟩
      refine ⟨c', by omega, ?_, hni, ?_⟩
      · rw [rename_loop, if_pos hmem]
        exact heq
      · intro i hi1 hi2
        rcases Nat.eq_or_lt_of_le hi1 with hh | hlt
        · rw [hh] at hmem
          exact hmem
        · exact hall i (by omega) hi2
    · exact ⟨counter, le_refl _, by rw [rename_loop, if_neg hmem], hmem,
        fun i hi1 hi2 => by omega⟩

lemma mem_dir_names {files : List Loc} {d name : String} :
    name ∈ dir_names files d ↔ (d, name) ∈ files := by
  simp only [dir_names, List.mem_filterMap]
  constructor
  · rintro ⟨p, hp, hsome⟩
    by_cases h : p.1 = d
    · rw [if_pos h] at hsome
      have h2 : p.2 = name := Option.some_inj.mp hsome
      have : p = (d, name) := Prod.ext h h2
      rwa [this] at hp
    · rw [if_neg h] at hsome
      simp at hsome
  · intro hp
    exact ⟨(d, name), hp, by rw [if_pos rfl]⟩

lemma mem_replace_file {files : List Loc} {src target p : Loc} :
    p ∈ replace_file files src target
      ↔ p = target ∨ (p ∈ files ∧ p ≠ src ∧ p ≠ target) := by
  simp [replace_file, List.mem_filter, List.mem_cons, and_assoc]

lemma candidate_name_pos (name base ext : String) {c : ℕ} (h : 1 ≤ c) :
    candidate_name name base ext c = base ++ "_" ++ Nat.repr c ++ ext := by
  cases c with
  | zero => omega
  | succ k => rfl

lemma safe_rename_eq_of_not_mem (files : List Loc) (src : Loc) (dst_dir : String)
    (new_name : Option String) (h : (new_name.getD src.2) ∉ dir_names files dst_dir) :
    safe_rename files src dst_dir new_name
      = (replace_file files src (dst_dir, new_name.getD src.2),
          (dst_dir, new_name.getD src.2)) := by
  simp [safe_rename, h]

lemma safe_rename_eq_of_mem (files : List Loc) (src : Loc) (dst_dir : String)
    (new_name : Option String) (h : (new_name.getD src.2) ∈ dir_names files dst_dir) :
    safe_rename files src dst_dir new_name
      = (replace_file files src (dst_dir,
            rename_loop (dir_names files dst_dir) (splitext (new_name.getD src.2)).1
              (splitext (new_name.getD src.2)).2 ((dir_names files dst_dir).length + 1) 1),
          (dst_dir,
            rename_loop (dir_names files dst_dir) (splitext (new_name.getD src.2)).1
              (splitext (new_name.getD src.2)).2 ((dir_names files dst_dir).length + 1) 1)) := by
  simp [safe_rename, h]

lemma safe_rename_spec (files : List Loc) (src : Loc) (dst_dir : String)
    (new_name : Option String) :
    ∃ k, (safe_rename files src dst_dir new_name).2
        = (dst_dir, candidate_name (new_name.getD src.2)
            (splitext (new_name.getD src.2)).1 (splitext (new_name.getD src.2)).2 k)
      ∧ (safe_rename files src dst_dir new_name).2.2 ∉ dir_names files dst_dir
      ∧ (safe_rename files src dst_dir new_name).1
          = replace_file files src (safe_rename files src dst_dir new_name).2
      ∧ ∀ i < k, candidate_name (new_name.getD src.2) (splitext (new_name.getD src.2)).1
            (splitext (new_name.getD src.2)).2 i ∈ dir_names files dst_dir := by
  by_cases hmem : (new_name.getD src.2) ∈ dir_names files dst_dir
  · obtain ⟨c0, hc01, hc02, hc03⟩ :=
      exists_free_counter (dir_names files dst_dir)
        (splitext (new_name.getD src.2)).1 (splitext (new_name.getD src.2)).2
    obtain ⟨c, hc1, heq, hni, hall⟩ :=
      rename_loop_spec (dir_names files dst_dir)
        (splitext (new_name.getD src.2)).1 (splitext (new_name.getD src.2)).2
        ((dir_names files dst_dir).length + 1) 1 ⟨c0, hc01, by omega, hc03⟩
    rw [safe_rename_eq_of_mem files src dst_dir new_name hmem]
    refine ⟨c, ?_, ?_, rfl, ?_⟩
    · rw [candidate_name_pos _ _ _ hc1, heq]
    · rw [heq]
      exact hni
    · intro i hi
      cases i with
      | zero => exact hmem
      | succ i' =>
        rw [candidate_name_pos _ _ _ (by omega : 1 ≤ i' + 1)]
        exact hall (i' + 1) (by omega) hi
  · rw [safe_rename_eq_of_not_mem files src dst_dir new_name hmem]
    exact ⟨0, rfl, hmem, rfl, fun i hi => by omega⟩

/-- C6: `safe_rename` moves `src` into `dst_dir` under `new_name` (or src's
own name); if that name is taken it deterministically tries `_1`, `_2`, …
counting up from 1 and takes the first free one, performs the replace and
returns the final path; consequently two scripts submitted with the same
source name land as two distinct files in the directory and neither
overwrites the other. -/
theorem c6_safe_rename_conflicts (files : List Loc) (src1 src2 : Loc)
    (dst_dir n : String) (h1 : src1.1 ≠ dst_dir) (h2 : src2.1 ≠ dst_dir) :
    (∃ k, (safe_rename files src1 dst_dir (some n)).2
          = (dst_dir, candidate_name n (splitext n).1 (splitext n).2 k)
        ∧ (safe_rename files src1 dst_dir (some n)).2.2 ∉ dir_names files dst_dir
        ∧ ∀ i < k, candidate_name n (splitext n).1 (splitext n).2 i
            ∈ dir_names files dst_dir)
    ∧ (safe_rename files src1 dst_dir (some n)).2
        ∈ (safe_rename files src1 dst_dir (some n)).1
    ∧ src1 ∉ (safe_rename files src1 dst_dir (some n)).1
    ∧ (safe_rename files src1 dst_dir (some n)).2
        ≠ (safe_rename (safe_rename files src1 dst_dir (some n)).1 src2 dst_dir (some n)).2
    ∧ (safe_rename files src1 dst_dir (some n)).2
        ∈ (safe_rename (safe_rename files src1 dst_dir (some n)).1 src2 dst_dir (some n)).1
    ∧ (safe_rename (safe_rename files src1 dst_dir (some n)).1 src2 dst_dir (some n)).2
        ∈ (safe_rename (safe_rename files src1 dst_dir (some n)).1 src2 dst_dir (some n)).1 := by
  obtain ⟨k1, ht1, hni1, hrepl1, hall1⟩ := safe_rename_spec files src1 dst_dir (some n)
  obtain ⟨k2, ht2, hni2, hrepl2, hall2⟩ :=
    safe_rename_spec (safe_rename files src1 dst_dir (some n)).1 src2 dst_dir (some n)
  have htd1 : (safe_rename files src1 dst_dir (some n)).2.1 = dst_dir := by
    rw [ht1]
  have htd2 : (safe_rename (safe_rename files src1 dst_dir (some n)).1 src2
      dst_dir (some n)).2.1 = dst_dir := by
    rw [ht2]
  have hmem1 : (safe_rename files src1 dst_dir (some n)).2
      ∈ (safe_rename files src1 dst_dir (some n)).1 := by
    rw [hrepl1]
    exact mem_replace_file.mpr (Or.inl rfl)
  have hsrc1 : src1 ∉ (safe_rename files src1 dst_dir (some n)).1 := by
    rw [hrepl1]
    intro hc
    rcases mem_replace_file.mp hc with hc | ⟨_, hc, _⟩
    · exact h1 (hc ▸ htd1)
    · exact hc rfl
  have hname_in : (safe_rename files src1 dst_dir (some n)).2.2
      ∈ dir_names (safe_rename files src1 dst_dir (some n)).1 dst_dir := by
    apply mem_dir_names.mpr
    have := hmem1
    rwa [show (safe_rename files src1 dst_dir (some n)).2
        = (dst_dir, (safe_rename files src1 dst_dir (some n)).2.2) from
      Prod.ext htd1 rfl] at this
  have hneq : (safe_rename files src1 dst_dir (some n)).2
      ≠ (safe_rename (safe_rename files src1 dst_dir (some n)).1 src2 dst_dir (some n)).2 := by
    intro hc
    rw [hc] at hname_in
    exact hni2 hname_in
  refine ⟨⟨k1, ht1, hni1, hall1⟩, hmem1, hsrc1, hneq, ?_, ?_⟩
  · rw [hrepl2]
    refine mem_replace_file.mpr (Or.inr ⟨hmem1, ?_, hneq⟩)
    intro hc
    apply h2
    rw [← hc]
    exact htd1
  · rw [hrepl2]
    exact mem_replace_file.mpr (Or.inl rfl)

/-- Witness for C6 at a concrete file system and two concrete sources. -/
theorem c6_safe_rename_conflicts_witness :
    (("inbox", "a.py") : Loc).1 ≠ "to_run" ∧ (("inbox2", "a.py") : Loc).1 ≠ "to_run" ∧
    (safe_rename [(("inbox" : String), ("a.py" : String)), ("inbox2", "a.py")]
        ("inbox", "a.py") "to_run" (some "a.py")).2
      ∈ (safe_rename [(("inbox" : String), ("a.py" : String)), ("inbox2", "a.py")]
        ("inbox", "a.py") "to_run" (some "a.py")).1 :=
  ⟨by decide, by decide,
    (c6_safe_rename_conflicts [("inbox", "a.py"), ("inbox2", "a.py")]
      ("inbox", "a.py") ("inbox2", "a.py") "to_run" "a.py"
      (by decide) (by decide)).2.1⟩

lemma append_right_ne {a b c : String} (h : b ≠ c) : a ++ b ≠ a ++ c := by
  intro hc
  apply h
  apply String.ext
  have hd := congrArg String.data hc
  simp only [String.data_append] at hd
  exact List.append_cancel_left hd

/-- C5: when a child terminates, the supervisor charges
`add_usage(user, duration, 1)` with the elapsed duration regardless of the
exit status; exit code 0 renames the script from `running/` to `complete/`
and sets COMPLETED, any other code renames it to `fail/` and sets FAILED. -/
theorem c5_wait_and_finalize (layout : DirLayout) (usage : List (String × ℚ))
    (files : List Loc) (job : Job) (rc : ℤ) (start_time now : ℚ)
    (hdir : job.script_path.1 = layout.running) :
    (wait_and_finalize layout usage files job rc start_time now).1
        = add_usage usage job.user_id (now - start_time) 1
    ∧ get_usage (wait_and_finalize layout usage files job rc start_time now).1
          job.user_id
        = get_usage usage job.user_id + (now - start_time)
    ∧ (rc = 0 →
        (wait_and_finalize layout usage files job rc start_time now).2.1.status
            = "COMPLETED"
        ∧ (∃ nm, (layout.complete, nm)
            ∈ (wait_and_finalize layout usage files job rc start_time now).2.2)
        ∧ job.script_path
            ∉ (wait_and_finalize layout usage files job rc start_time now).2.2)
    ∧ (rc ≠ 0 →
        (wait_and_finalize layout usage files job rc start_time now).2.1.status
            = "FAILED"
        ∧ (∃ nm, (layout.fail, nm)
            ∈ (wait_and_finalize layout usage files job rc start_time now).2.2)
        ∧ job.script_path
            ∉ (wait_and_finalize layout usage files job rc start_time now).2.2) := by
  have hcharge : (wait_and_finalize layout usage files job rc start_time now).1
      = add_usage usage job.user_id (now - start_time) 1 := by
    by_cases h : rc = 0 <;> simp [wait_and_finalize, h]
  refine ⟨hcharge, ?_, ?_, ?_⟩
  · rw [hcharge]
    unfold get_usage add_usage
    rw [dict_get_set_self]
    push_cast
    ring
  · intro h
    obtain ⟨k, ht, hni, hrepl, _⟩ :=
      safe_rename_spec files job.script_path layout.complete none
    have hfiles : (wait_and_finalize layout usage files job rc start_time now).2.2
        = (safe_rename files job.script_path layout.complete none).1 := by
      simp [wait_and_finalize, h]
    have hstat : (wait_and_finalize layout usage files job rc start_time now).2.1.status
        = "COMPLETED" := by
      simp [wait_and_finalize, h]
    refine ⟨hstat, ?_, ?_⟩
    · refine ⟨(safe_rename files job.script_path layout.complete none).2.2, ?_⟩
      rw [hfiles, hrepl]
      apply mem_replace_file.mpr
      left
      rw [ht]
    · rw [hfiles, hrepl]
      intro hc
      rcases mem_replace_file.mp hc with hc | ⟨_, hc, _⟩
      · have : job.script_path.1 = layout.complete := by rw [hc, ht]
        rw [hdir] at this
        exact append_right_ne (by decide : ("/running" : String) ≠ "/complete") this
      · exact hc rfl
  · intro h
    obtain ⟨k, ht, hni, hrepl, _⟩ :=
      safe_rename_spec files job.script_path layout.fail none
    have hfiles : (wait_and_finalize layout usage files job rc start_time now).2.2
        = (safe_rename files job.script_path layout.fail none).1 := by
      simp [wait_and_finalize, h]
    have hstat : (wait_and_finalize layout usage files job rc start_time now).2.1.status
        = "FAILED" := by
      simp [wait_and_finalize, h]
    refine ⟨hstat, ?_, ?_⟩
    · refine ⟨(safe_rename files job.script_path layout.fail none).2.2, ?_⟩
      rw [hfiles, hrepl]
      apply mem_replace_file.mpr
      left
      rw [ht]
    · rw [hfiles, hrepl]
      intro hc
      rcases mem_replace_file.mp hc with hc | ⟨_, hc, _⟩
      · have : job.script_path.1 = layout.fail := by rw [hc, ht]
        rw [hdir] at this
        exact append_right_ne (by decide : ("/running" : String) ≠ "/fail") this
      · exact hc rfl

/-- Witness for C5 at a concrete job, ledger and both exit codes. -/
theorem c5_wait_and_finalize_witness :
    ((("/w/running", "j.py") : Loc).1 = ({ root := "/w" } : DirLayout).running)
    ∧ (wait_and_finalize { root := "/w" } [] [("/w/running", "j.py")]
        { id := "j", script_path := ("/w/running", "j.py"), user_id := "alice",
          vram_required := 1, created_at := 0 } 1 0 5).1
      = add_usage [] "alice" (5 - 0) 1 :=
  ⟨by decide,
    (c5_wait_and_finalize { root := "/w" } [] [("/w/running", "j.py")]
      { id := "j", script_path := ("/w/running", "j.py"), user_id := "alice",
        vram_required := 1, created_at := 0 } 1 0 5 (by decide)).1⟩

/-- C10: `submit_job` moves the source script into `to_run` as
`<job_id>.py` (the original path no longer exists afterwards) and the new
record starts QUEUED with no GPU, no pid and priority 0. -/
theorem c10_submit_job (layout : DirLayout) (files : List Loc) (src : Loc)
    (user_id : String) (vram : ℕ) (partition qos job_id : String) (now : ℚ)
    (hfresh : (job_id ++ ".py") ∉ dir_names files layout.to_run)
    (hsrc : src.1 ≠ layout.to_run) :
    (submit_job layout files src user_id vram partition qos job_id now).2.script_path
        = (layout.to_run, job_id ++ ".py")
    ∧ (submit_job layout files src user_id vram partition qos job_id now).2.script_path
        ∈ (submit_job layout files src user_id vram partition qos job_id now).1
    ∧ src ∉ (submit_job layout files src user_id vram partition qos job_id now).1
    ∧ (submit_job layout files src user_id vram partition qos job_id now).2.status
        = "QUEUED"
    ∧ (submit_job layout files src user_id vram partition qos job_id now).2.assigned_gpu
        = none
    ∧ (submit_job layout files src user_id vram partition qos job_id now).2.pid = none
    ∧ (submit_job layout files src user_id vram partition qos job_id now).2.priority_score
        = 0 := by
  have hr := safe_rename_eq_of_not_mem files src layout.to_run
    (some (job_id ++ ".py")) hfresh
  have hpath : (submit_job layout files src user_id vram partition qos job_id now).2.script_path
      = (layout.to_run, job_id ++ ".py") := by
    simp [submit_job, hr]
  have hfile : (submit_job layout files src user_id vram partition qos job_id now).1
      = replace_file files src (layout.to_run, job_id ++ ".py") := by
    simp [submit_job, hr]
  refine ⟨hpath, ?_, ?_, rfl, rfl, rfl, rfl⟩
  · rw [hpath, hfile]
    exact mem_replace_file.mpr (Or.inl rfl)
  · rw [hfile]
    intro hc
    rcases mem_replace_file.mp hc with hc | ⟨_, hc, _⟩
    · exact hsrc (by rw [hc])
    · exact hc rfl

/-- Witness for C10 at a concrete submission. -/
theorem c10_submit_job_witness :
    (("id42" ++ ".py") ∉ dir_names [(("inbox" : String), ("s.py" : String))]
        ({ root := "/w" } : DirLayout).to_run)
    ∧ ((("inbox", "s.py") : Loc).1 ≠ ({ root := "/w" } : DirLayout).to_run)
    ∧ (submit_job { root := "/w" } [("inbox", "s.py")] ("inbox", "s.py")
        "alice" 1 "normal" "standard" "id42" 0).2.status = "QUEUED" :=
  ⟨by decide, by decide,
    (c10_submit_job { root := "/w" } [("inbox", "s.py")] ("inbox", "s.py")
      "alice" 1 "normal" "standard" "id42" 0 (by decide) (by decide)).2.2.2.1⟩

/-- C7 (the code at the failing input): after a restart over a root whose
`running/` still holds a script, `__init__` leaves the file system untouched
(the orphan is still in `running/`) and the job store empty — no recovery
pass runs and nothing is reconciled to FAILED. -/
theorem c7_no_recovery_pass :
    (gpu_scheduler_init "/work" [("/work/running", "orphan.py")]).files
        = [("/work/running", "orphan.py")]
    ∧ "orphan.py" ∈ dir_names
        (gpu_scheduler_init "/work" [("/work/running", "orphan.py")]).files
        ((gpu_scheduler_init "/work" [("/work/running", "orphan.py")]).layout.running)
    ∧ (gpu_scheduler_init "/work" [("/work/running", "orphan.py")]).jobs = [] := by
  refine ⟨rfl, ?_, rfl⟩
  apply mem_dir_names.mpr
  show ((gpu_scheduler_init "/work" [("/work/running", "orphan.py")]).layout.running,
      "orphan.py") ∈ [(("/work/running" : String), ("orphan.py" : String))]
  decide

lemma running_count_eq_countP (entries : List DJob) :
    running_count entries = entries.countP (fun j => j.status == "RUNNING") := by
  rw [running_count, List.countP_eq_length_filter]

lemma running_count_complete_overdue (now : ℚ) (entries : List DJob) :
    running_count (complete_overdue now entries) ≤ running_count entries := by
  rw [running_count_eq_countP, running_count_eq_countP, complete_overdue,
    List.countP_map]
  apply List.countP_mono_left
  intro j _ hj
  by_cases h : j.status = "RUNNING"
  · simp [h]
  · simp only [Function.comp, if_neg h] at hj
    exact hj

lemma running_count_score_pending (now : ℚ) (entries : List DJob) :
    running_count (score_pending now entries) = running_count entries := by
  rw [running_count_eq_countP, running_count_eq_countP, score_pending,
    List.countP_map]
  apply List.countP_congr
  intro j _
  simp only [Function.comp]
  by_cases h : j.status == "PENDING"
  · rw [if_pos h]
  · rw [if_neg h]

lemma countP_set_le (l : List DJob) (a : DJob) (p : DJob → Bool) :
    ∀ i : ℕ, (l.set i a).countP p ≤ l.countP p + 1 := by
  induction l with
  | nil => intro i; simp
  | cons x xs ih =>
    intro i
    cases i with
    | zero =>
      rw [List.set_cons_zero, List.countP_cons, List.countP_cons]
      split_ifs <;> omega
    | succ n =>
      rw [List.set_cons_succ, List.countP_cons, List.countP_cons]
      have := ih n
      split_ifs <;> omega

lemma promote_loop_count (now : ℚ) (lst : List (ℕ × DJob)) :
    ∀ (slots : ℤ) (acc : List DJob),
      running_count (promote_loop now lst slots acc)
        ≤ running_count acc + slots.toNat := by
  induction lst with
  | nil =>
    intro slots acc
    simp [promote_loop]
  | cons hd rest ih =>
    intro slots acc
    obtain ⟨i, j⟩ := hd
    by_cases hs : slots ≤ 0
    · rw [promote_loop, if_pos hs]
      exact Nat.le_add_right _ _
    · rw [promote_loop, if_neg hs]
      have h1 := ih (slots - 1)
        (acc.set i { j with status := "RUNNING", started_at := some now })
      have h2 := countP_set_le acc
        { j with status := "RUNNING", started_at := some now }
        (fun j => j.status == "RUNNING") i

      rw [running_count_eq_countP, running_count_eq_countP] at h1
      rw [running_count_eq_countP, running_count_eq_countP]
      omega

lemma process_jobs_eq (now : ℚ) (entries : List DJob) (he : entries ≠ []) :
    process_jobs now entries =
      if (MAX_CONCURRENT : ℤ) - running_count (complete_overdue now entries) ≤ 0 then
        complete_overdue now entries
      else
        promote_loop now
          (((score_pending now (complete_overdue now entries)).enum.filter
              (fun p => p.2.status == "PENDING")).insertionSort
            (fun a b => b.2.priority_score ≤ a.2.priority_score))
          ((MAX_CONCURRENT : ℤ) - running_count (complete_overdue now entries))
          (score_pending now (complete_overdue now entries)) := by
  unfold process_jobs
  rw [if_neg he]

/-- C1: the daemon's admission pass preserves the MaxConcurrent cap — if at
most MAX_CONCURRENT (2) jobs are RUNNING before `process_jobs`, the same
holds after it; and when MAX_CONCURRENT jobs are still RUNNING after the
completion sweep, the pass stops before promoting: no PENDING job is touched
(the state is exactly the completion sweep's). -/
theorem c1_running_cap (now : ℚ) (entries : List DJob)
    (h : running_count entries ≤ MAX_CONCURRENT) :
    running_count (process_jobs now entries) ≤ MAX_CONCURRENT
    ∧ (MAX_CONCURRENT ≤ running_count (complete_overdue now entries) →
        process_jobs now entries = complete_overdue now entries) := by
  have hM : MAX_CONCURRENT = 2 := rfl
  constructor
  · by_cases he : entries = []
    · subst he
      simp [process_jobs, running_count]
    · rw [process_jobs_eq now entries he]
      by_cases hs : ((MAX_CONCURRENT : ℤ)
          - running_count (complete_overdue now entries) ≤ 0)
      · rw [if_pos hs]
        exact le_trans (running_count_complete_overdue now entries) h
      · rw [if_neg hs]
        have h1 := promote_loop_count now
          (((score_pending now (complete_overdue now entries)).enum.filter
              (fun p => p.2.status == "PENDING")).insertionSort
            (fun a b => b.2.priority_score ≤ a.2.priority_score))
          ((MAX_CONCURRENT : ℤ) - running_count (complete_overdue now entries))
          (score_pending now (complete_overdue now entries))
        have h2 := running_count_score_pending now (complete_overdue now entries)
        rw [hM] at hs h1 ⊢
        omega
  · intro hge
    by_cases he : entries = []
    · subst he
      simp [process_jobs, complete_overdue]
    · rw [process_jobs_eq now entries he, if_pos (by rw [hM] at hge ⊢; omega)]

/-- Witness for C1 at a concrete store with one RUNNING and one PENDING job. -/
theorem c1_running_cap_witness :
    running_count [{ job_id := "a", status := "RUNNING", started_at := some 0 },
        { job_id := "b", status := "PENDING" }] ≤ MAX_CONCURRENT
    ∧ running_count (process_jobs 0
        [{ job_id := "a", status := "RUNNING", started_at := some 0 },
         { job_id := "b", status := "PENDING" }]) ≤ MAX_CONCURRENT :=
  ⟨by decide,
    (c1_running_cap 0
      [{ job_id := "a", status := "RUNNING", started_at := some 0 },
       { job_id := "b", status := "PENDING" }] (by decide)).1⟩

/-! #### The admission pass (C2) -/

lemma jobBig_score : (rescore {} [] 0 jobBig).priority_score = 11700 := by
  show calculate_slurm_priority {} (get_usage [] jobBig.user_id) jobBig 0 = 11700
  rw [calculate_slurm_priority_eq]
  norm_num +decide [jobBig, get_usage, dict_get_nil, dict_get_cons, min_def]

lemma jobSmall_score : (rescore {} [] 0 jobSmall).priority_score = 42425 / 4 := by
  show calculate_slurm_priority {} (get_usage [] jobSmall.user_id) jobSmall 0 = 42425 / 4
  rw [calculate_slurm_priority_eq]
  norm_num +decide [jobSmall, get_usage, dict_get_nil, dict_get_cons, min_def]

lemma sort_fixture :
    (([jobBig, jobSmall].map (rescore {} [] 0)).insertionSort
        (fun a b => b.priority_score ≤ a.priority_score))
      = [rescore {} [] 0 jobBig, rescore {} [] 0 jobSmall] := by
  have hr : (rescore {} [] 0 jobSmall).priority_score
      ≤ (rescore {} [] 0 jobBig).priority_score := by
    rw [jobSmall_score, jobBig_score]
    norm_num
  simp only [List.map_cons, List.map_nil, List.insertionSort, List.orderedInsert]
  rw [if_pos hr]

lemma pick_fixture :
    pick_next_job {} [] 0 [jobBig, jobSmall] = some (rescore {} [] 0 jobBig) := by
  have hfilt : ([jobBig, jobSmall].filter (fun j => j.status == "QUEUED"))
      = [jobBig, jobSmall] := rfl
  simp only [pick_next_job, hfilt]
  rw [if_neg (by decide : ¬([jobBig, jobSmall] : List Job) = []), sort_fixture]
  rfl

lemma find_fixture_big :
    find_available_gpu [gpu16] 0 (rescore {} [] 0 jobBig).vram_required = none := by
  decide

lemma find_fixture_small :
    find_available_gpu [gpu16] 0 jobSmall.vram_required = some 0 := by
  decide

lemma pass_fixture :
    scheduler_pass {} { root := "/w" } [gpu16] [] 0 777 [jobBig, jobSmall]
        [jobBig.script_path, jobSmall.script_path]
      = (rescore_store {} [] 0 [jobBig, jobSmall],
          [jobBig.script_path, jobSmall.script_path]) := by
  have hrc : running_count_jobs (rescore_store {} [] 0 [jobBig, jobSmall]) = 0 := rfl
  simp only [scheduler_pass, pick_fixture, launch_job, hrc, find_fixture_big]

/-- C2 counterexample: with one free 16 GiB GPU and two QUEUED jobs — the
higher-priority one demanding 32 GiB (fits nowhere), the lower-priority one
demanding 1 GiB (fits) — the admission pass considers only the top candidate
and, finding no GPU for it, admits nothing: the lower-priority candidate is
not tried on the free GPU, contradicting the claim that later candidates are
still considered and admitted. -/
theorem c2_counterexample :
    pick_next_job {} [] 0 [jobBig, jobSmall] = some (rescore {} [] 0 jobBig)
    ∧ find_available_gpu [gpu16] 0 (rescore {} [] 0 jobBig).vram_required = none
    ∧ find_available_gpu [gpu16] 0 jobSmall.vram_required = some 0
    ∧ scheduler_pass {} { root := "/w" } [gpu16] [] 0 777 [jobBig, jobSmall]
        [jobBig.script_path, jobSmall.script_path]
      = (rescore_store {} [] 0 [jobBig, jobSmall],
          [jobBig.script_path, jobSmall.script_path])
    ∧ running_count_jobs (scheduler_pass {} { root := "/w" } [gpu16] [] 0 777
        [jobBig, jobSmall] [jobBig.script_path, jobSmall.script_path]).1 = 0 := by
  refine ⟨pick_fixture, find_fixture_big, find_fixture_small, pass_fixture, ?_⟩
  rw [pass_fixture]
  rfl

lemma pick_next_job_spec (cfg : SlurmConfig) (usage : List (String × ℚ))
    (now : ℚ) (jobs : List Job) (top : Job)
    (hpick : pick_next_job cfg usage now jobs = some top) :
    top.status = "QUEUED"
    ∧ ∀ j ∈ jobs, j.status = "QUEUED" →
        calculate_slurm_priority cfg (get_usage usage j.user_id) j now
          ≤ top.priority_score := by
  unfold pick_next_job at hpick
  by_cases hc : jobs.filter (fun j => j.status == "QUEUED") = []
  · rw [if_pos hc] at hpick
    simp at hpick
  · rw [if_neg hc] at hpick
    have hsorted := List.sorted_insertionSort
      (fun (a b : Job) => b.priority_score ≤ a.priority_score)
      ((jobs.filter (fun j => j.status == "QUEUED")).map (rescore cfg usage now))
    have hperm := List.perm_insertionSort
      (fun (a b : Job) => b.priority_score ≤ a.priority_score)
      ((jobs.filter (fun j => j.status == "QUEUED")).map (rescore cfg usage now))
    obtain ⟨tail, htail⟩ : ∃ tail,
        (((jobs.filter (fun j => j.status == "QUEUED")).map
            (rescore cfg usage now)).insertionSort
          (fun a b => b.priority_score ≤ a.priority_score)) = top :: tail := by
      cases hs : (((jobs.filter (fun j => j.status == "QUEUED")).map
          (rescore cfg usage now)).insertionSort
        (fun a b => b.priority_score ≤ a.priority_score)) with
      | nil => rw [hs] at hpick; simp at hpick
      | cons x t =>
        rw [hs] at hpick
        simp only [List.head?_cons, Option.some_inj] at hpick
        exact ⟨t, by rw [hpick]⟩
    constructor
    · have htop_mem : top ∈ (jobs.filter (fun j => j.status == "QUEUED")).map
          (rescore cfg usage now) := by
        have : top ∈ (((jobs.filter (fun j => j.status == "QUEUED")).map
            (rescore cfg usage now)).insertionSort
          (fun a b => b.priority_score ≤ a.priority_score)) := by
          rw [htail]
          exact List.mem_cons_self _ _
        exact hperm.mem_iff.mp this
      obtain ⟨j, hjmem, hjeq⟩ := List.mem_map.mp htop_mem
      have hq := (List.mem_filter.mp hjmem).2
      rw [← hjeq]
      show j.status = "QUEUED"
      simpa using hq
    · intro j hj hq
      have hjs : rescore cfg usage now j
          ∈ (jobs.filter (fun j => j.status == "QUEUED")).map (rescore cfg usage now) :=
        List.mem_map_of_mem _ (List.mem_filter.mpr ⟨hj, by simp [hq]⟩)
      have hmem2 : rescore cfg usage now j
          ∈ (((jobs.filter (fun j => j.status == "QUEUED")).map
              (rescore cfg usage now)).insertionSort
            (fun a b => b.priority_score ≤ a.priority_score)) :=
        hperm.symm.mem_iff.mp hjs
      rw [htail] at hmem2
      rcases List.mem_cons.mp hmem2 with heq | hmem3
      · exact le_of_eq (congrArg Job.priority_score heq)
      · rw [htail] at hsorted
        exact List.rel_of_sorted_cons hsorted _ hmem3

lemma running_count_jobs_eq_countP (jobs : List Job) :
    running_count_jobs jobs = jobs.countP (fun j => j.status == "RUNNING") := by
  rw [running_count_jobs, List.countP_eq_length_filter]

lemma rescore_store_status (cfg : SlurmConfig) (usage : List (String × ℚ))
    (now : ℚ) (jobs : List Job) :
    (rescore_store cfg usage now jobs).map Job.status = jobs.map Job.status := by
  rw [rescore_store, List.map_map]
  apply List.map_congr_left
  intro j _
  simp only [Function.comp]
  by_cases h : j.status == "QUEUED"
  · rw [if_pos h]
    rfl
  · rw [if_neg h]

lemma rescore_store_ids (cfg : SlurmConfig) (usage : List (String × ℚ))
    (now : ℚ) (jobs : List Job) :
    (rescore_store cfg usage now jobs).map Job.id = jobs.map Job.id := by
  rw [rescore_store, List.map_map]
  apply List.map_congr_left
  intro j _
  simp only [Function.comp]
  by_cases h : j.status == "QUEUED"
  · rw [if_pos h]
    rfl
  · rw [if_neg h]

lemma rescore_store_running_count (cfg : SlurmConfig) (usage : List (String × ℚ))
    (now : ℚ) (jobs : List Job) :
    running_count_jobs (rescore_store cfg usage now jobs) = running_count_jobs jobs := by
  rw [running_count_jobs_eq_countP, running_count_jobs_eq_countP, rescore_store,
    List.countP_map]
  apply List.countP_congr
  intro j _
  simp only [Function.comp]
  by_cases h : j.status == "QUEUED"
  · rw [if_pos h]
    rfl
  · rw [if_neg h]

lemma countP_update_job_le (j : Job) (p : Job → Bool) :
    ∀ l : List Job, (l.map Job.id).Nodup →
      (update_job l j).countP p ≤ l.countP p + 1 := by
  intro l
  induction l with
  | nil => intro _; simp [update_job]
  | cons x xs ih =>
    intro h
    rw [List.map_cons, List.nodup_cons] at h
    obtain ⟨hx, hxs⟩ := h
    simp only [update_job, List.map_cons]
    by_cases hid : x.id == j.id
    · have hxid : x.id = j.id := by simpa using hid
      have htail : xs.map (fun k => if k.id == j.id then j else k) = xs := by
        have : ∀ k ∈ xs, (if k.id == j.id then j else k) = k := by
          intro k hk
          have hkne : ¬ (k.id == j.id) = true := by
            simp only [beq_iff_eq]
            intro he
            exact hx (by
              rw [hxid, ← he]
              exact List.mem_map_of_mem Job.id hk)
          rw [if_neg hkne]
        rw [List.map_congr_left this]
        exact List.map_id' xs
      rw [if_pos hid, htail, List.countP_cons, List.countP_cons]
      split_ifs <;> omega
    · rw [if_neg hid, List.countP_cons, List.countP_cons]
      have ih2 : (xs.map (fun k => if k.id == j.id then j else k)).countP p
          ≤ xs.countP p + 1 := ih hxs
      split_ifs <;> omega

/-- C2 amended: pending candidates are ranked by freshly recomputed score in
descending order, but each admission pass considers only the single
highest-scoring QUEUED job; if no compatible free GPU exists for that one
job, the pass admits nothing — later, lower-priority candidates are not
tried on other GPUs — and in every case at most one job is admitted per
pass. -/
theorem c2_amended (cfg : SlurmConfig) (layout : DirLayout)
    (metrics : List GpuMetrics) (usage : List (String × ℚ)) (now : ℚ)
    (new_pid : ℕ) (jobs : List Job) (files : List Loc) (top : Job)
    (hpick : pick_next_job cfg usage now jobs = some top)
    (hnodup : (jobs.map Job.id).Nodup) :
    (top.status = "QUEUED"
      ∧ ∀ j ∈ jobs, j.status = "QUEUED" →
          calculate_slurm_priority cfg (get_usage usage j.user_id) j now
            ≤ top.priority_score)
    ∧ (find_available_gpu metrics
          (running_count_jobs (rescore_store cfg usage now jobs))
          top.vram_required = none →
        scheduler_pass cfg layout metrics usage now new_pid jobs files
            = (rescore_store cfg usage now jobs, files)
        ∧ (scheduler_pass cfg layout metrics usage now new_pid jobs files).1.map
              Job.status
            = jobs.map Job.status)
    ∧ running_count_jobs
          (scheduler_pass cfg layout metrics usage now new_pid jobs files).1
        ≤ running_count_jobs jobs + 1 := by
  refine ⟨pick_next_job_spec cfg usage now jobs top hpick, ?_, ?_⟩
  · intro hf
    have hpass : scheduler_pass cfg layout metrics usage now new_pid jobs files
        = (rescore_store cfg usage now jobs, files) := by
      simp only [scheduler_pass, hpick, launch_job, hf]
    exact ⟨hpass, by rw [hpass]; exact rescore_store_status cfg usage now jobs⟩
  · cases hf : find_available_gpu metrics
        (running_count_jobs (rescore_store cfg usage now jobs))
        top.vram_required with
    | none =>
      have hpass : scheduler_pass cfg layout metrics usage now new_pid jobs files
          = (rescore_store cfg usage now jobs, files) := by
        simp only [scheduler_pass, hpick, launch_job, hf]
      rw [hpass]
      rw [show (rescore_store cfg usage now jobs, files).1
          = rescore_store cfg usage now jobs from rfl]
      rw [rescore_store_running_count]
      omega
    | some g =>
      have hpass : (scheduler_pass cfg layout metrics usage now new_pid jobs files).1
          = update_job (rescore_store cfg usage now jobs)
              { top with
                script_path := (safe_rename files top.script_path layout.running none).2
                status := "RUNNING"
                assigned_gpu := some g
                pid := some new_pid } := by
        simp only [scheduler_pass, hpick, launch_job, hf]
      rw [hpass, running_count_jobs_eq_countP, running_count_jobs_eq_countP]
      have hnodup2 : ((rescore_store cfg usage now jobs).map Job.id).Nodup := by
        rw [rescore_store_ids]
        exact hnodup
      have h1 := countP_update_job_le
        { top with
          script_path := (safe_rename files top.script_path layout.running none).2
          status := "RUNNING"
          assigned_gpu := some g
          pid := some new_pid }
        (fun j => j.status == "RUNNING")
        (rescore_store cfg usage now jobs) hnodup2
      have h2 := rescore_store_running_count cfg usage now jobs
      rw [running_count_jobs_eq_countP, running_count_jobs_eq_countP] at h2
      omega

/-- Witness for C2's amended claim at the concrete two-job fixture. -/
theorem c2_amended_witness :
    pick_next_job {} [] 0 [jobBig, jobSmall] = some (rescore {} [] 0 jobBig)
    ∧ (([jobBig, jobSmall] : List Job).map Job.id).Nodup
    ∧ running_count_jobs
          (scheduler_pass {} { root := "/w" } [gpu16] [] 0 777 [jobBig, jobSmall]
            [jobBig.script_path, jobSmall.script_path]).1
        ≤ running_count_jobs [jobBig, jobSmall] + 1 :=
  ⟨pick_fixture, by decide,
    (c2_amended {} { root := "/w" } [gpu16] [] 0 777 [jobBig, jobSmall]
      [jobBig.script_path, jobSmall.script_path] (rescore {} [] 0 jobBig)
      pick_fixture (by decide)).2.2⟩

end GpuSched
